import Mathlib

/-!
Shallow embedding of the `AssetTokenization` contract
(`src/contracts/contracts/token-managemnt.sol`) together with the relevant
parts of the OpenZeppelin v5 ERC721 base it inherits from.

Modelling conventions:
* Addresses and uint256 values are `Nat`; address 0 is the zero address and
  uint256 overflow is made explicit (`U256`) exactly where the source's
  checked/unchecked arithmetic makes it observable.
* Every externally callable function is a total function
  `... → State → Except Err ...`.  An `.error` result models a reverted
  transaction: the execution environment discards every write of the failed
  call, so the caller's observable state is the unmodified input state.
* `block.timestamp` is passed in as an explicit `now : Nat` argument;
  `msg.sender` as an explicit `sender : Nat` argument.
* `_safeMint`'s `onERC721Received` callback is not modelled: recipients are
  treated as externally owned accounts (the callback only concerns contract
  recipients and decides none of the claims).
-/

namespace AssetTok

/-- 2^256, the bound of the EVM word size. -/
def U256 : Nat := 2 ^ 256

/-- Asset lifecycle states (`enum AssetStatus`). -/
inductive AssetStatus
  | Pending
  | Active
  | Frozen
  | Delisted
  deriving DecidableEq, Repr

/-- `struct AssetInfo` — asset metadata and compliance. -/
structure AssetInfo where
  metadataURI : String
  isCompliant : Bool
  status : AssetStatus
  valuation : Nat
  registrationDate : Nat
  assetType : String
  deriving DecidableEq, Repr

/-- `struct TransferRecord` — one provenance entry.  The Solidity field names
`from`/`to` are Lean keywords, hence `fromAddr`/`toAddr`. -/
structure TransferRecord where
  fromAddr : Nat
  toAddr : Nat
  timestamp : Nat
  price : Nat
  deriving DecidableEq, Repr

/-- The zero-initialised `AssetInfo` a Solidity mapping returns for an
unset key. -/
def AssetInfo.zero : AssetInfo :=
  { metadataURI := "", isCompliant := false, status := .Pending,
    valuation := 0, registrationDate := 0, assetType := "" }

/-- The four roles of the contract (`DEFAULT_ADMIN_ROLE`, `ADMIN_ROLE`,
`MINTER_ROLE`, `COMPLIANCE_ROLE`). -/
inductive Role
  | DefaultAdmin
  | Admin
  | Minter
  | Compliance
  deriving DecidableEq, Repr

/-- Error kinds: each constructor corresponds to one revert reason of the
source (require string or OpenZeppelin custom error), plus the kinds of the
spec-modelled pausable surface. -/
inductive Err
  | AccessControlUnauthorized
  | RecipientNotVerified
  | AssetNotCompliant
  | AssetNotActive
  | AssetNotFound
  | NotAuthorized
  | ERC721InvalidReceiver
  | ERC721IncorrectOwner
  | ERC721InvalidSender
  | ERC721NonexistentToken
  | ERC721InsufficientApproval
  | ERC721InvalidApprover
  | ERC721InvalidOperator
  | ReentrantCall
  | ArithmeticOverflow
  | Paused
  | AlreadyPaused
  | AlreadyUnpaused
  | EmptyBatch
  | BatchTooLarge
  deriving DecidableEq, Repr

/-- The whole observable contract state.  The fields up to `entered` embed
the storage of the contract under `src/` (including the inherited ERC721 and
ReentrancyGuard storage).  The two final fields, `pausedFlag` and
`transferRecordedInUpdate`, exist only in the spec-modelled V2 operations
(the repository's pausable revision, whose code is not under `src/`); the
V1 operations never read or write them. -/
structure State where
  owners : Nat → Nat
  balances : Nat → Nat
  tokenApprovals : Nat → Nat
  operatorApprovals : Nat → Nat → Bool
  assetDetails : Nat → AssetInfo
  transferHistory : Nat → List TransferRecord
  verifiedUsers : Nat → Bool
  nextTokenId : Nat
  roles : Role → Nat → Bool
  entered : Bool
  pausedFlag : Bool
  transferRecordedInUpdate : Nat → Bool

/-- The state right after the constructor ran with `msg.sender = deployer`:
all storage zero-initialised, every role granted to the deployer, and the
deployer marked verified (`verifiedUsers[msg.sender] = true`). -/
def initialState (deployer : Nat) : State :=
  { owners := fun _ => 0
    balances := fun _ => 0
    tokenApprovals := fun _ => 0
    operatorApprovals := fun _ _ => false
    assetDetails := fun _ => AssetInfo.zero
    transferHistory := fun _ => []
    verifiedUsers := fun a => a == deployer
    nextTokenId := 0
    roles := fun _ a => a == deployer
    entered := false
    pausedFlag := false
    transferRecordedInUpdate := fun _ => false }

/-- `ERC721._isAuthorized(owner, spender, tokenId)` (OpenZeppelin v5). -/
def isAuthorized (s : State) (owner spender tokenId : Nat) : Bool :=
  spender != 0 &&
    (owner == spender || s.operatorApprovals owner spender ||
      s.tokenApprovals tokenId == spender)

/-- Append one `TransferRecord` to an asset's history
(`transferHistory[tokenId].push(...)`). -/
def pushRecord (s : State) (tokenId : Nat) (r : TransferRecord) : State :=
  { s with transferHistory := fun k =>
      if k = tokenId then s.transferHistory tokenId ++ [r]
      else s.transferHistory k }

/-- The gate at the top of the contract's `_update` override: skipped when
minting (`from == address(0)`); otherwise checks compliance, Active status
and recipient verification, then appends a zero-price record unless the
history's last entry already has this recipient (lines 177-193 of the
source). -/
def gateAndRecord (toA tokenId now : Nat) (s : State) : Except Err State :=
  let fromA := s.owners tokenId
  if fromA = 0 then .ok s
  else if (s.assetDetails tokenId).isCompliant = false then .error .AssetNotCompliant
  else if (s.assetDetails tokenId).status ≠ AssetStatus.Active then .error .AssetNotActive
  else if s.verifiedUsers toA = false then .error .RecipientNotVerified
  else
    let hist := s.transferHistory tokenId
    if hist.length = 0 ∨ (hist.getLastD ⟨0, 0, 0, 0⟩).toAddr ≠ toA then
      .ok (pushRecord s tokenId ⟨fromA, toA, now, 0⟩)
    else .ok s

/-- The state mutation of the base `ERC721._update` (OpenZeppelin v5):
clear the token approval and decrement the old owner's balance, increment
the new owner's balance, and set the owner.  Balance arithmetic is in an
`unchecked` block in the source, hence the explicit mod-2^256 wrap. -/
def superUpdateApply (s : State) (toA tokenId : Nat) : State :=
  { s with
    tokenApprovals := fun k =>
      if s.owners tokenId ≠ 0 ∧ k = tokenId then 0 else s.tokenApprovals k
    balances := fun a =>
      let afterDebit :=
        if s.owners tokenId ≠ 0 ∧ a = s.owners tokenId then
          (s.balances a + (U256 - 1)) % U256
        else s.balances a
      if toA ≠ 0 ∧ a = toA then (afterDebit + 1) % U256 else afterDebit
    owners := fun k => if k = tokenId then toA else s.owners k }

/-- The contract's `_update(toA, tokenId, auth)` override composed with the
base implementation it calls: first the compliance gate and zero-price
recording above, then (in `super._update`) the authorization check when
`auth != address(0)` and the ownership mutation.  Returns the previous
owner together with the new state. -/
def update' (toA tokenId auth now : Nat) (s : State) : Except Err (Nat × State) :=
  match gateAndRecord toA tokenId now s with
  | .error e => .error e
  | .ok s₁ =>
    let fromA := s.owners tokenId
    if auth ≠ 0 then
      if isAuthorized s₁ fromA auth tokenId then
        .ok (fromA, superUpdateApply s₁ toA tokenId)
      else if fromA = 0 then .error .ERC721NonexistentToken
      else .error .ERC721InsufficientApproval
    else .ok (fromA, superUpdateApply s₁ toA tokenId)

/-- `ERC721.transferFrom(from, toA, tokenId)` with `msg.sender = sender`
going through the contract's `_update` override.  This is the plain
(non-price-tracked) transfer entry point. -/
def transferFrom (sender fromA toA tokenId now : Nat) (s : State) : Except Err State :=
  if toA = 0 then .error .ERC721InvalidReceiver
  else
    match update' toA tokenId sender now s with
    | .error e => .error e
    | .ok (prev, s₁) =>
      if prev ≠ fromA then .error .ERC721IncorrectOwner else .ok s₁

/-- `ERC721._transfer(from, toA, tokenId)` (OpenZeppelin v5), the internal
transfer used by `transferWithPrice`: no caller authorization inside
`_update`, plus the nonexistent-token and incorrect-owner checks. -/
def internalTransfer (fromA toA tokenId now : Nat) (s : State) : Except Err State :=
  if toA = 0 then .error .ERC721InvalidReceiver
  else
    match update' toA tokenId 0 now s with
    | .error e => .error e
    | .ok (prev, s₁) =>
      if prev = 0 then .error .ERC721NonexistentToken
      else if prev ≠ fromA then .error .ERC721IncorrectOwner
      else .ok s₁

/-- `ERC721._mint` as reached through `_safeMint` (receiver callback not
modelled, see file header). -/
def mintToken (toA tokenId now : Nat) (s : State) : Except Err State :=
  if toA = 0 then .error .ERC721InvalidReceiver
  else
    match update' toA tokenId 0 now s with
    | .error e => .error e
    | .ok (prev, s₁) =>
      if prev ≠ 0 then .error .ERC721InvalidSender else .ok s₁

/-- `registerAsset(toA, metadataURI, assetType, valuation)` — Minter-role
only; requires a verified recipient; allocates `_nextTokenId++` (checked
arithmetic, so overflow reverts), safe-mints, then stores the
`AssetInfo` with status Pending and compliance false. -/
def registerAsset (sender toA : Nat) (metadataURI assetType : String)
    (valuation now : Nat) (s : State) : Except Err (Nat × State) :=
  if s.roles .Minter sender = false then .error .AccessControlUnauthorized
  else if s.verifiedUsers toA = false then .error .RecipientNotVerified
  else if s.nextTokenId + 1 ≥ U256 then .error .ArithmeticOverflow
  else
    let assetId := s.nextTokenId
    match mintToken toA assetId now { s with nextTokenId := s.nextTokenId + 1 } with
    | .error e => .error e
    | .ok s₂ =>
      .ok (assetId,
        { s₂ with assetDetails := fun k =>
            if k = assetId then
              { metadataURI := metadataURI, isCompliant := false,
                status := .Pending, valuation := valuation,
                registrationDate := now, assetType := assetType }
            else s₂.assetDetails k })

/-- `setUserVerification(user, status)` — Compliance-role only. -/
def setUserVerification (sender user : Nat) (status : Bool) (s : State) :
    Except Err State :=
  if s.roles .Compliance sender = false then .error .AccessControlUnauthorized
  else .ok { s with verifiedUsers := fun a =>
    if a = user then status else s.verifiedUsers a }

/-- The net effect of the `batchVerifyUsers` loop on the `verifiedUsers`
mapping: each listed user is written in order. -/
def setVerifiedAll (users : List Nat) (status : Bool) (v : Nat → Bool) :
    Nat → Bool :=
  users.foldl (fun acc u => fun a => if a = u then status else acc a) v

/-- `batchVerifyUsers(users, status)` as it stands in the source under
`src/` (lines 107-115): Compliance-role only, then an unconditional loop —
there is no size check of any kind. -/
def batchVerifyUsers (sender : Nat) (users : List Nat) (status : Bool)
    (s : State) : Except Err State :=
  if s.roles .Compliance sender = false then .error .AccessControlUnauthorized
  else .ok { s with verifiedUsers := setVerifiedAll users status s.verifiedUsers }

/-- `setCompliance(assetId, status)` — Compliance-role only, asset must
exist. -/
def setCompliance (sender assetId : Nat) (status : Bool) (s : State) :
    Except Err State :=
  if s.roles .Compliance sender = false then .error .AccessControlUnauthorized
  else if s.owners assetId = 0 then .error .AssetNotFound
  else .ok { s with assetDetails := fun k =>
    if k = assetId then { s.assetDetails assetId with isCompliant := status }
    else s.assetDetails k }

/-- `setAssetStatus(assetId, newStatus)` — Admin-role only, asset must
exist. -/
def setAssetStatus (sender assetId : Nat) (newStatus : AssetStatus) (s : State) :
    Except Err State :=
  if s.roles .Admin sender = false then .error .AccessControlUnauthorized
  else if s.owners assetId = 0 then .error .AssetNotFound
  else .ok { s with assetDetails := fun k =>
    if k = assetId then { s.assetDetails assetId with status := newStatus }
    else s.assetDetails k }

/-- `updateValuation(assetId, newValuation)` — Admin-role only, asset must
exist. -/
def updateValuation (sender assetId newValuation : Nat) (s : State) :
    Except Err State :=
  if s.roles .Admin sender = false then .error .AccessControlUnauthorized
  else if s.owners assetId = 0 then .error .AssetNotFound
  else .ok { s with assetDetails := fun k =>
    if k = assetId then { s.assetDetails assetId with valuation := newValuation }
    else s.assetDetails k }

/-- `updateMetadata(assetId, newMetadataURI)` — Admin-role only, asset must
exist. -/
def updateMetadata (sender assetId : Nat) (newMetadataURI : String) (s : State) :
    Except Err State :=
  if s.roles .Admin sender = false then .error .AccessControlUnauthorized
  else if s.owners assetId = 0 then .error .AssetNotFound
  else .ok { s with assetDetails := fun k =>
    if k = assetId then { s.assetDetails assetId with metadataURI := newMetadataURI }
    else s.assetDetails k }

/-- `transferWithPrice(from, toA, assetId, price)` — `nonReentrant`
(ReentrancyGuard status checked and raised before the body, cleared after),
then: caller must be authorized for the asset, recipient must be verified,
the priced `TransferRecord` is pushed, and `_transfer` runs the generic
ownership-change gate. -/
def transferWithPrice (sender fromA toA assetId price now : Nat) (s : State) :
    Except Err State :=
  if s.entered then .error .ReentrantCall
  else if isAuthorized s (s.owners assetId) sender assetId = false then
    .error .NotAuthorized
  else if s.verifiedUsers toA = false then .error .RecipientNotVerified
  else
    let s₁ := pushRecord { s with entered := true } assetId ⟨fromA, toA, now, price⟩
    match internalTransfer fromA toA assetId now s₁ with
    | .error e => .error e
    | .ok s₂ => .ok { s₂ with entered := false }

/-- `getAssetInfo(assetId)` — fails when the asset does not exist, else
returns the stored info together with the current owner. -/
def getAssetInfo (assetId : Nat) (s : State) : Except Err (AssetInfo × Nat) :=
  if s.owners assetId = 0 then .error .AssetNotFound
  else .ok (s.assetDetails assetId, s.owners assetId)

/-- `getTransferHistory(assetId)` — fails when the asset does not exist. -/
def getTransferHistory (assetId : Nat) (s : State) :
    Except Err (List TransferRecord) :=
  if s.owners assetId = 0 then .error .AssetNotFound
  else .ok (s.transferHistory assetId)

/-- `ERC721.approve(to, tokenId)` (inherited by the contract): the token
must exist and the caller must be its owner or an approved operator. -/
def approve (sender toA tokenId : Nat) (s : State) : Except Err State :=
  if s.owners tokenId = 0 then .error .ERC721NonexistentToken
  else if sender ≠ s.owners tokenId ∧
      s.operatorApprovals (s.owners tokenId) sender = false then
    .error .ERC721InvalidApprover
  else .ok { s with tokenApprovals := fun k =>
    if k = tokenId then toA else s.tokenApprovals k }

/-- `ERC721.setApprovalForAll(operator, approved)` (inherited by the
contract): the operator may not be the zero address. -/
def setApprovalForAll (sender operatorA : Nat) (approved : Bool) (s : State) :
    Except Err State :=
  if operatorA = 0 then .error .ERC721InvalidOperator
  else .ok { s with operatorApprovals := fun o a =>
    if o = sender ∧ a = operatorA then approved else s.operatorApprovals o a }

/-! ### Spec-modelled V2 operations

The repository's pausable revision of the contract (the one its test suite
`AssetTokenization.test.js` and its fix notes `FIXES_SUMMARY.md` exercise) is
not present under `src/` — only the V1 contract file is.  The operations
below model that missing revision.  Each is marked `Modelled from the
spec:`. -/

/-- Modelled from the spec: `pause()` of the circuit breaker (§4.6), absent
from the contract under `src/` — Admin-role only, fails `AlreadyPaused`
when already paused. -/
def pause (sender : Nat) (s : State) : Except Err State :=
  if s.roles .Admin sender = false then .error .AccessControlUnauthorized
  else if s.pausedFlag then .error .AlreadyPaused
  else .ok { s with pausedFlag := true }

/-- Modelled from the spec: `unpause()` of the circuit breaker (§4.6),
absent from the contract under `src/` — Admin-role only, fails
`AlreadyUnpaused` when not paused. -/
def unpause (sender : Nat) (s : State) : Except Err State :=
  if s.roles .Admin sender = false then .error .AccessControlUnauthorized
  else if s.pausedFlag = false then .error .AlreadyUnpaused
  else .ok { s with pausedFlag := false }

/-- Modelled from the spec: the gate part of the revised `_update` override
(§4.4 and §4.6), absent from `src/` — pause blocks transfers but not
minting, and the zero-price record is skipped exactly when the
"already recorded" marker of the price-tracked entry point is set. -/
def gateAndRecordV2 (toA tokenId now : Nat) (s : State) : Except Err State :=
  if s.owners tokenId ≠ 0 ∧ s.pausedFlag then .error .Paused
  else if s.owners tokenId = 0 then .ok s
  else if (s.assetDetails tokenId).isCompliant = false then .error .AssetNotCompliant
  else if (s.assetDetails tokenId).status ≠ AssetStatus.Active then .error .AssetNotActive
  else if s.verifiedUsers toA = false then .error .RecipientNotVerified
  else if s.transferRecordedInUpdate tokenId = false then
    .ok (pushRecord s tokenId ⟨s.owners tokenId, toA, now, 0⟩)
  else .ok s

/-- Modelled from the spec: the revised `_update` override composed with the
base implementation — after the gate the marker is cleared unconditionally,
then the authorization check and ownership mutation run. -/
def updateV2 (toA tokenId auth now : Nat) (s : State) : Except Err (Nat × State) :=
  match gateAndRecordV2 toA tokenId now s with
  | .error e => .error e
  | .ok s₁ =>
    let s₂ : State := { s₁ with transferRecordedInUpdate := fun k =>
      if k = tokenId then false else s₁.transferRecordedInUpdate k }
    let fromA := s.owners tokenId
    if auth ≠ 0 then
      if isAuthorized s₂ fromA auth tokenId then
        .ok (fromA, superUpdateApply s₂ toA tokenId)
      else if fromA = 0 then .error .ERC721NonexistentToken
      else .error .ERC721InsufficientApproval
    else .ok (fromA, superUpdateApply s₂ toA tokenId)

/-- Modelled from the spec: plain transfer through the revised `_update`. -/
def transferFromV2 (sender fromA toA tokenId now : Nat) (s : State) :
    Except Err State :=
  if toA = 0 then .error .ERC721InvalidReceiver
  else
    match updateV2 toA tokenId sender now s with
    | .error e => .error e
    | .ok (prev, s₁) =>
      if prev ≠ fromA then .error .ERC721IncorrectOwner else .ok s₁

/-- Modelled from the spec: `_transfer` through the revised `_update`. -/
def internalTransferV2 (fromA toA tokenId now : Nat) (s : State) :
    Except Err State :=
  if toA = 0 then .error .ERC721InvalidReceiver
  else
    match updateV2 toA tokenId 0 now s with
    | .error e => .error e
    | .ok (prev, s₁) =>
      if prev = 0 then .error .ERC721NonexistentToken
      else if prev ≠ fromA then .error .ERC721IncorrectOwner
      else .ok s₁

/-- Modelled from the spec: `_mint` through the revised `_update` (pause
does not block minting, since the minted token has no previous owner). -/
def mintTokenV2 (toA tokenId now : Nat) (s : State) : Except Err State :=
  if toA = 0 then .error .ERC721InvalidReceiver
  else
    match updateV2 toA tokenId 0 now s with
    | .error e => .error e
    | .ok (prev, s₁) =>
      if prev ≠ 0 then .error .ERC721InvalidSender else .ok s₁

/-- Modelled from the spec: `registerAsset` of the revised contract — its
body is unchanged (§4.6: registration stays permitted while paused); only
the `_update` it reaches through `_safeMint` differs. -/
def registerAssetV2 (sender toA : Nat) (metadataURI assetType : String)
    (valuation now : Nat) (s : State) : Except Err (Nat × State) :=
  if s.roles .Minter sender = false then .error .AccessControlUnauthorized
  else if s.verifiedUsers toA = false then .error .RecipientNotVerified
  else if s.nextTokenId + 1 ≥ U256 then .error .ArithmeticOverflow
  else
    let assetId := s.nextTokenId
    match mintTokenV2 toA assetId now { s with nextTokenId := s.nextTokenId + 1 } with
    | .error e => .error e
    | .ok s₂ =>
      .ok (assetId,
        { s₂ with assetDetails := fun k =>
            if k = assetId then
              { metadataURI := metadataURI, isCompliant := false,
                status := .Pending, valuation := valuation,
                registrationDate := now, assetType := assetType }
            else s₂.assetDetails k })

/-- Modelled from the spec: `transferWithPrice` of the revised contract —
`nonReentrant` and `whenNotPaused`, then authorization and verification,
then the "already recorded" marker is raised before the priced record is
pushed and `_transfer` runs. -/
def transferWithPriceV2 (sender fromA toA assetId price now : Nat) (s : State) :
    Except Err State :=
  if s.entered then .error .ReentrantCall
  else if s.pausedFlag then .error .Paused
  else if isAuthorized s (s.owners assetId) sender assetId = false then
    .error .NotAuthorized
  else if s.verifiedUsers toA = false then .error .RecipientNotVerified
  else
    let s₁ : State := { s with entered := true, transferRecordedInUpdate := fun k =>
      if k = assetId then true else s.transferRecordedInUpdate k }
    let s₂ := pushRecord s₁ assetId ⟨fromA, toA, now, price⟩
    match internalTransferV2 fromA toA assetId now s₂ with
    | .error e => .error e
    | .ok s₃ => .ok { s₃ with entered := false }

/-- Modelled from the spec: `batchSetVerification` of the revised contract
(§4.5) — fails `EmptyBatch` on 0 accounts and `BatchTooLarge` above 100,
then sets every listed account's flag. -/
def batchVerifyUsersV2 (sender : Nat) (users : List Nat) (status : Bool)
    (s : State) : Except Err State :=
  if s.roles .Compliance sender = false then .error .AccessControlUnauthorized
  else if users.length = 0 then .error .EmptyBatch
  else if users.length > 100 then .error .BatchTooLarge
  else .ok { s with verifiedUsers := setVerifiedAll users status s.verifiedUsers }

/-! ### Operation traces

`Op` covers every externally callable state-mutating entry point of the
contract under `src/`; `execOp` applies one call with transactional
semantics (a reverted call leaves the state unchanged).  Calls with
`msg.sender = 0` cannot occur on the EVM (no key controls the zero
address), so they are modelled as not happening. -/

inductive Op where
  | register (sender toA : Nat) (uri ty : String) (valuation now : Nat)
  | verifyOne (sender user : Nat) (status : Bool)
  | verifyBatch (sender : Nat) (users : List Nat) (status : Bool)
  | comply (sender assetId : Nat) (status : Bool)
  | statusSet (sender assetId : Nat) (st : AssetStatus)
  | valuationSet (sender assetId newValuation : Nat)
  | metadataSet (sender assetId : Nat) (uri : String)
  | approveTok (sender toA tokenId : Nat)
  | approveAll (sender operatorA : Nat) (approved : Bool)
  | plainTransfer (sender fromA toA tokenId now : Nat)
  | pricedTransfer (sender fromA toA assetId price now : Nat)

/-- Keep the new state of a successful call, roll back on revert. -/
def applyTx (s : State) : Except Err State → State
  | .ok s' => s'
  | .error _ => s

/-- Run one external call against the state. -/
def execOp (s : State) : Op → State
  | .register sender toA uri ty v now =>
    if sender = 0 then s else
      match registerAsset sender toA uri ty v now s with
      | .ok (_, s') => s'
      | .error _ => s
  | .verifyOne sender user status =>
    if sender = 0 then s else applyTx s (setUserVerification sender user status s)
  | .verifyBatch sender users status =>
    if sender = 0 then s else applyTx s (batchVerifyUsers sender users status s)
  | .comply sender assetId status =>
    if sender = 0 then s else applyTx s (setCompliance sender assetId status s)
  | .statusSet sender assetId st =>
    if sender = 0 then s else applyTx s (setAssetStatus sender assetId st s)
  | .valuationSet sender assetId nv =>
    if sender = 0 then s else applyTx s (updateValuation sender assetId nv s)
  | .metadataSet sender assetId uri =>
    if sender = 0 then s else applyTx s (updateMetadata sender assetId uri s)
  | .approveTok sender toA tokenId =>
    if sender = 0 then s else applyTx s (approve sender toA tokenId s)
  | .approveAll sender operatorA approved =>
    if sender = 0 then s else applyTx s (setApprovalForAll sender operatorA approved s)
  | .plainTransfer sender fromA toA tokenId now =>
    if sender = 0 then s else applyTx s (transferFrom sender fromA toA tokenId now s)
  | .pricedTransfer sender fromA toA assetId price now =>
    if sender = 0 then s else applyTx s (transferWithPrice sender fromA toA assetId price now s)

/-- Run a list of external calls in order. -/
def execOps (ops : List Op) (s : State) : State :=
  ops.foldl execOp s

/-- The state invariant behind claim C7: exactly the identifiers below
`_nextTokenId` are assigned, the zero address has approved no operator,
and nonexistent tokens carry no token approval. -/
def Inv (s : State) : Prop :=
  (∀ id, s.owners id ≠ 0 ↔ id < s.nextTokenId) ∧
  (∀ x, s.operatorApprovals 0 x = false) ∧
  (∀ id, s.owners id = 0 → s.tokenApprovals id = 0)

/-! ### Concrete states used by witnesses and counterexamples -/

/-- A small running state: account 1 deployed the contract and holds every
role, accounts 1-3 are verified, asset 0 exists, is owned by account 2 and
is compliant and Active, and no transfer is in flight. -/
def demoState : State :=
  { owners := fun k => if k = 0 then 2 else 0
    balances := fun a => if a = 2 then 1 else 0
    tokenApprovals := fun _ => 0
    operatorApprovals := fun _ _ => false
    assetDetails := fun k =>
      if k = 0 then
        { metadataURI := "ipfs://demo", isCompliant := true, status := .Active,
          valuation := 100, registrationDate := 5, assetType := "property" }
      else AssetInfo.zero
    transferHistory := fun _ => []
    verifiedUsers := fun a => a == 1 || a == 2 || a == 3
    nextTokenId := 1
    roles := fun _ a => a == 1
    entered := false
    pausedFlag := false
    transferRecordedInUpdate := fun _ => false }

/-- `demoState` with one provenance entry whose recipient is the current
owner (account 2), e.g. left behind by an earlier priced sale 3 → 2. -/
def staleHistoryState : State :=
  { demoState with transferHistory := fun k =>
      if k = 0 then [⟨3, 2, 4, 70⟩] else [] }

/-- `demoState` with the circuit breaker active. -/
def pausedDemoState : State :=
  { demoState with pausedFlag := true }

/-- `demoState` while a `transferWithPrice` call is in flight (the
ReentrancyGuard status is `ENTERED`). -/
def enteredDemoState : State :=
  { demoState with entered := true }

/-- `demoState` with asset 0 Frozen instead of Active. -/
def frozenDemoState : State :=
  { demoState with assetDetails := fun k =>
      if k = 0 then
        { metadataURI := "ipfs://demo", isCompliant := true, status := .Frozen,
          valuation := 100, registrationDate := 5, assetType := "property" }
      else AssetInfo.zero }

/-- Decide whether a call succeeded. -/
def isOk {α : Type} : Except Err α → Bool
  | .ok _ => true
  | .error _ => false

instance instDecEqExcept {ε α : Type} [DecidableEq ε] [DecidableEq α] :
    DecidableEq (Except ε α) := fun a b => by
  cases a with
  | ok x =>
    cases b with
    | ok y =>
      exact if h : x = y then .isTrue (by rw [h]) else .isFalse (by simp [h])
    | error f => exact .isFalse (fun hh => Except.noConfusion hh)
  | error e =>
    cases b with
    | ok y => exact .isFalse (fun hh => Except.noConfusion hh)
    | error f =>
      exact if h : e = f then .isTrue (by rw [h]) else .isFalse (by simp [h])

/-! ## Helper lemmas -/

@[simp] lemma isOk_ok {α : Type} (a : α) : isOk (.ok a) = true := rfl

@[simp] lemma isOk_error {α : Type} (e : Err) : isOk (.error e : Except Err α) = false := rfl

@[simp] lemma pushRecord_owners (s : State) (t : Nat) (r : TransferRecord) :
    (pushRecord s t r).owners = s.owners := rfl

@[simp] lemma pushRecord_nextTokenId (s : State) (t : Nat) (r : TransferRecord) :
    (pushRecord s t r).nextTokenId = s.nextTokenId := rfl

@[simp] lemma pushRecord_entered (s : State) (t : Nat) (r : TransferRecord) :
    (pushRecord s t r).entered = s.entered := rfl

@[simp] lemma pushRecord_assetDetails (s : State) (t : Nat) (r : TransferRecord) :
    (pushRecord s t r).assetDetails = s.assetDetails := rfl

@[simp] lemma pushRecord_verifiedUsers (s : State) (t : Nat) (r : TransferRecord) :
    (pushRecord s t r).verifiedUsers = s.verifiedUsers := rfl

@[simp] lemma pushRecord_roles (s : State) (t : Nat) (r : TransferRecord) :
    (pushRecord s t r).roles = s.roles := rfl

@[simp] lemma pushRecord_tokenApprovals (s : State) (t : Nat) (r : TransferRecord) :
    (pushRecord s t r).tokenApprovals = s.tokenApprovals := rfl

@[simp] lemma pushRecord_operatorApprovals (s : State) (t : Nat) (r : TransferRecord) :
    (pushRecord s t r).operatorApprovals = s.operatorApprovals := rfl

@[simp] lemma pushRecord_history (s : State) (t : Nat) (r : TransferRecord) (k : Nat) :
    (pushRecord s t r).transferHistory k =
      if k = t then s.transferHistory t ++ [r] else s.transferHistory k := rfl

@[simp] lemma superUpdateApply_owners (s : State) (toA t k : Nat) :
    (superUpdateApply s toA t).owners k = if k = t then toA else s.owners k := rfl

@[simp] lemma superUpdateApply_history (s : State) (toA t : Nat) :
    (superUpdateApply s toA t).transferHistory = s.transferHistory := rfl

@[simp] lemma superUpdateApply_nextTokenId (s : State) (toA t : Nat) :
    (superUpdateApply s toA t).nextTokenId = s.nextTokenId := rfl

@[simp] lemma superUpdateApply_entered (s : State) (toA t : Nat) :
    (superUpdateApply s toA t).entered = s.entered := rfl

@[simp] lemma superUpdateApply_assetDetails (s : State) (toA t : Nat) :
    (superUpdateApply s toA t).assetDetails = s.assetDetails := rfl

@[simp] lemma superUpdateApply_verifiedUsers (s : State) (toA t : Nat) :
    (superUpdateApply s toA t).verifiedUsers = s.verifiedUsers := rfl

@[simp] lemma superUpdateApply_roles (s : State) (toA t : Nat) :
    (superUpdateApply s toA t).roles = s.roles := rfl

@[simp] lemma superUpdateApply_operatorApprovals (s : State) (toA t : Nat) :
    (superUpdateApply s toA t).operatorApprovals = s.operatorApprovals := rfl

@[simp] lemma superUpdateApply_tokenApprovals (s : State) (toA t k : Nat) :
    (superUpdateApply s toA t).tokenApprovals k =
      if s.owners t ≠ 0 ∧ k = t then 0 else s.tokenApprovals k := rfl

/-- Inversion of a successful run of the compliance gate: either the token
is being minted and the state is untouched, or the three checks hold and
the zero-price record was appended exactly when the dedup condition of the
source allowed it. -/
lemma gateAndRecord_ok_inv {toA tokenId now : Nat} {s s₁ : State}
    (h : gateAndRecord toA tokenId now s = .ok s₁) :
    (s.owners tokenId = 0 ∧ s₁ = s) ∨
    (s.owners tokenId ≠ 0 ∧
      (s.assetDetails tokenId).isCompliant = true ∧
      (s.assetDetails tokenId).status = AssetStatus.Active ∧
      s.verifiedUsers toA = true ∧
      ((((s.transferHistory tokenId).length = 0 ∨
          ((s.transferHistory tokenId).getLastD ⟨0, 0, 0, 0⟩).toAddr ≠ toA) ∧
        s₁ = pushRecord s tokenId ⟨s.owners tokenId, toA, now, 0⟩) ∨
       (¬((s.transferHistory tokenId).length = 0 ∨
          ((s.transferHistory tokenId).getLastD ⟨0, 0, 0, 0⟩).toAddr ≠ toA) ∧
        s₁ = s))) := by
  simp only [gateAndRecord] at h
  split_ifs at h with h1 h2 h3 h4 h5 <;>
    first
    | exact Except.noConfusion h
    | · simp only [Except.ok.injEq] at h
        first
        | exact Or.inl ⟨h1, h.symm⟩
        | exact Or.inr ⟨h1, by simpa using h2, not_ne_iff.mp h3, by simpa using h4,
            Or.inl ⟨h5, h.symm⟩⟩
        | exact Or.inr ⟨h1, by simpa using h2, not_ne_iff.mp h3, by simpa using h4,
            Or.inr ⟨h5, h.symm⟩⟩

/-- A successful gate run can only change the transfer history. -/
lemma gateAndRecord_ok_fields {toA tokenId now : Nat} {s s₁ : State}
    (h : gateAndRecord toA tokenId now s = .ok s₁) :
    s₁.owners = s.owners ∧ s₁.nextTokenId = s.nextTokenId ∧
    s₁.entered = s.entered ∧ s₁.assetDetails = s.assetDetails ∧
    s₁.verifiedUsers = s.verifiedUsers ∧ s₁.roles = s.roles ∧
    s₁.tokenApprovals = s.tokenApprovals ∧
    s₁.operatorApprovals = s.operatorApprovals := by
  rcases gateAndRecord_ok_inv h with ⟨-, rfl⟩ | ⟨-, -, -, -, ⟨-, rfl⟩ | ⟨-, rfl⟩⟩ <;>
    simp

/-- Inversion of a successful `_update`: the returned value is the previous
owner, the post-state is the base mutation applied to the gate's output,
and with a nonzero `auth` the caller was authorized. -/
lemma update'_ok_inv {toA tokenId auth now : Nat} {s : State} {prev : Nat}
    {t : State} (h : update' toA tokenId auth now s = .ok (prev, t)) :
    prev = s.owners tokenId ∧
    ∃ s₁, gateAndRecord toA tokenId now s = .ok s₁ ∧
      t = superUpdateApply s₁ toA tokenId ∧
      (auth ≠ 0 → isAuthorized s₁ (s.owners tokenId) auth tokenId = true) := by
  simp only [update'] at h
  cases hg : gateAndRecord toA tokenId now s with
  | error e => rw [hg] at h; exact Except.noConfusion h
  | ok s₁ =>
    rw [hg] at h
    dsimp only at h
    by_cases ha : auth ≠ 0
    · rw [if_pos ha] at h
      by_cases hb : isAuthorized s₁ (s.owners tokenId) auth tokenId = true
      · rw [if_pos hb] at h
        simp only [Except.ok.injEq, Prod.mk.injEq] at h
        exact ⟨h.1.symm, s₁, rfl, h.2.symm, fun _ => hb⟩
      · rw [if_neg hb] at h
        by_cases hc : s.owners tokenId = 0
        · rw [if_pos hc] at h; exact Except.noConfusion h
        · rw [if_neg hc] at h; exact Except.noConfusion h
    · rw [if_neg ha] at h
      simp only [Except.ok.injEq, Prod.mk.injEq] at h
      exact ⟨h.1.symm, s₁, rfl, h.2.symm, fun hc => absurd hc ha⟩

/-- Inversion of a successful plain transfer (`transferFrom`). -/
lemma transferFrom_ok_inv {sender fromA toA tokenId now : Nat} {s s' : State}
    (h : transferFrom sender fromA toA tokenId now s = .ok s') :
    toA ≠ 0 ∧ s.owners tokenId = fromA ∧
    ∃ s₁, gateAndRecord toA tokenId now s = .ok s₁ ∧
      s' = superUpdateApply s₁ toA tokenId ∧
      (sender ≠ 0 → isAuthorized s₁ (s.owners tokenId) sender tokenId = true) := by
  simp only [transferFrom] at h
  by_cases h0 : toA = 0
  · rw [if_pos h0] at h; exact Except.noConfusion h
  rw [if_neg h0] at h
  cases hu : update' toA tokenId sender now s with
  | error e => rw [hu] at h; exact Except.noConfusion h
  | ok pr =>
    obtain ⟨prev, t⟩ := pr
    rw [hu] at h
    dsimp only at h
    by_cases h1 : prev ≠ fromA
    · rw [if_pos h1] at h; exact Except.noConfusion h
    rw [if_neg h1] at h
    simp only [Except.ok.injEq] at h
    obtain ⟨hprev, s₁, hg, ht, hauth⟩ := update'_ok_inv hu
    refine ⟨h0, ?_, s₁, hg, by rw [← h, ht], hauth⟩
    rw [← hprev]; exact not_ne_iff.mp h1

/-- Inversion of a successful internal `_transfer`. -/
lemma internalTransfer_ok_inv {fromA toA tokenId now : Nat} {s s' : State}
    (h : internalTransfer fromA toA tokenId now s = .ok s') :
    toA ≠ 0 ∧ s.owners tokenId = fromA ∧ fromA ≠ 0 ∧
    ∃ s₁, gateAndRecord toA tokenId now s = .ok s₁ ∧
      s' = superUpdateApply s₁ toA tokenId := by
  simp only [internalTransfer] at h
  by_cases h0 : toA = 0
  · rw [if_pos h0] at h; exact Except.noConfusion h
  rw [if_neg h0] at h
  cases hu : update' toA tokenId 0 now s with
  | error e => rw [hu] at h; exact Except.noConfusion h
  | ok pr =>
    obtain ⟨prev, t⟩ := pr
    rw [hu] at h
    dsimp only at h
    by_cases h1 : prev = 0
    · rw [if_pos h1] at h; exact Except.noConfusion h
    rw [if_neg h1] at h
    by_cases h2 : prev ≠ fromA
    · rw [if_pos h2] at h; exact Except.noConfusion h
    rw [if_neg h2] at h
    simp only [Except.ok.injEq] at h
    obtain ⟨hprev, s₁, hg, ht, -⟩ := update'_ok_inv hu
    have hfrom : s.owners tokenId = fromA := by
      rw [← hprev]; exact not_ne_iff.mp h2
    exact ⟨h0, hfrom, by rw [← hfrom, ← hprev]; exact h1, s₁, hg, by rw [← h, ht]⟩

/-- Inversion of a successful `_mint`: the token had no owner and the gate
was skipped, so only the base ownership mutation happened. -/
lemma mintToken_ok_inv {toA tokenId now : Nat} {s s' : State}
    (h : mintToken toA tokenId now s = .ok s') :
    toA ≠ 0 ∧ s.owners tokenId = 0 ∧ s' = superUpdateApply s toA tokenId := by
  simp only [mintToken] at h
  by_cases h0 : toA = 0
  · rw [if_pos h0] at h; exact Except.noConfusion h
  rw [if_neg h0] at h
  cases hu : update' toA tokenId 0 now s with
  | error e => rw [hu] at h; exact Except.noConfusion h
  | ok pr =>
    obtain ⟨prev, t⟩ := pr
    rw [hu] at h
    dsimp only at h
    by_cases h1 : prev ≠ 0
    · rw [if_pos h1] at h; exact Except.noConfusion h
    rw [if_neg h1] at h
    simp only [Except.ok.injEq] at h
    obtain ⟨hprev, s₁, hg, ht, -⟩ := update'_ok_inv hu
    have howner : s.owners tokenId = 0 := by rw [← hprev]; exact not_ne_iff.mp h1
    have hs₁ : s₁ = s := by
      rcases gateAndRecord_ok_inv hg with ⟨-, rfl⟩ | ⟨hne, -⟩
      · rfl
      · exact absurd howner hne
    exact ⟨h0, howner, by rw [← h, ht, hs₁]⟩

/-- Inversion of a successful `registerAsset`: the caller held the Minter
role, the recipient was verified and nonzero, the assigned identifier is
the pre-call `_nextTokenId` and the counter advanced by one. -/
lemma registerAsset_ok_inv {sender toA : Nat} {uri ty : String} {v now : Nat}
    {s : State} {rid : Nat} {s' : State}
    (h : registerAsset sender toA uri ty v now s = .ok (rid, s')) :
    rid = s.nextTokenId ∧ toA ≠ 0 ∧
    s.roles .Minter sender = true ∧ s.verifiedUsers toA = true ∧
    s.owners s.nextTokenId = 0 ∧
    s'.owners = (fun k => if k = rid then toA else s.owners k) ∧
    s'.nextTokenId = s.nextTokenId + 1 ∧
    s'.transferHistory = s.transferHistory ∧
    s'.operatorApprovals = s.operatorApprovals ∧
    s'.tokenApprovals = (fun k => s.tokenApprovals k) ∧
    s'.entered = s.entered := by
  simp only [registerAsset] at h
  by_cases h1 : s.roles .Minter sender = false
  · rw [if_pos h1] at h; exact Except.noConfusion h
  rw [if_neg h1] at h
  by_cases h2 : s.verifiedUsers toA = false
  · rw [if_pos h2] at h; exact Except.noConfusion h
  rw [if_neg h2] at h
  by_cases h3 : s.nextTokenId + 1 ≥ U256
  · rw [if_pos h3] at h; exact Except.noConfusion h
  rw [if_neg h3] at h
  cases hm : mintToken toA s.nextTokenId now { s with nextTokenId := s.nextTokenId + 1 } with
  | error e => rw [hm] at h; exact Except.noConfusion h
  | ok s₂ =>
    rw [hm] at h
    dsimp only at h
    simp only [Except.ok.injEq, Prod.mk.injEq] at h
    obtain ⟨hrid, hs'⟩ := h
    obtain ⟨ht0, howner, hsup⟩ := mintToken_ok_inv hm
    subst hrid
    have howner' : s.owners s.nextTokenId = 0 := howner
    refine ⟨rfl, ht0, by simpa using h1, by simpa using h2, howner', ?_, ?_, ?_, ?_, ?_, ?_⟩
    · rw [← hs']; rw [hsup]; funext k; simp
    · rw [← hs']; rw [hsup]; simp
    · rw [← hs']; rw [hsup]; simp
    · rw [← hs']; rw [hsup]; simp
    · rw [← hs']; rw [hsup]; funext k; simp [howner']
    · rw [← hs']; rw [hsup]; simp

/-- Master inversion of a successful `transferWithPrice`: all five gate
facts hold on the pre-state, exactly the one priced record was appended to
the target asset's history, the owner moved to the recipient, and the
reentrancy marker is back down. -/
lemma transferWithPrice_ok_spec {sender fromA toA assetId price now : Nat}
    {s s' : State}
    (h : transferWithPrice sender fromA toA assetId price now s = .ok s') :
    s.entered = false ∧
    fromA = s.owners assetId ∧ fromA ≠ 0 ∧ toA ≠ 0 ∧
    isAuthorized s (s.owners assetId) sender assetId = true ∧
    s.verifiedUsers toA = true ∧
    (s.assetDetails assetId).isCompliant = true ∧
    (s.assetDetails assetId).status = AssetStatus.Active ∧
    s'.transferHistory assetId =
      s.transferHistory assetId ++ [⟨fromA, toA, now, price⟩] ∧
    (∀ k, k ≠ assetId → s'.transferHistory k = s.transferHistory k) ∧
    s'.owners assetId = toA ∧
    (∀ k, k ≠ assetId → s'.owners k = s.owners k) ∧
    s'.nextTokenId = s.nextTokenId ∧
    s'.entered = false ∧
    s'.operatorApprovals = s.operatorApprovals ∧
    (∀ k, k ≠ assetId → s'.tokenApprovals k = s.tokenApprovals k) := by
  simp only [transferWithPrice] at h
  split_ifs at h with hent hauth hver
  have hent' : s.entered = false := by simpa using hent
  have hauth' : isAuthorized s (s.owners assetId) sender assetId = true := by
    have := hauth
    simpa using this
  have hver' : s.verifiedUsers toA = true := by
    have := hver
    simpa using this
  cases hit : internalTransfer fromA toA assetId now
      (pushRecord { s with entered := true } assetId ⟨fromA, toA, now, price⟩) with
  | error e => rw [hit] at h; exact Except.noConfusion h
  | ok s₂ =>
    rw [hit] at h
    dsimp only at h
    simp only [Except.ok.injEq] at h
    obtain ⟨ht0, howner, hfrom0, s₁, hg, hs₂⟩ := internalTransfer_ok_inv hit
    have howners : s.owners assetId = fromA := howner
    rcases gateAndRecord_ok_inv hg with ⟨hz, -⟩ | ⟨-, hcomp, hact, -, hpush⟩
    · exact absurd (howners ▸ hz) hfrom0
    have hs₁ :
        s₁ = pushRecord { s with entered := true } assetId ⟨fromA, toA, now, price⟩ := by
      rcases hpush with ⟨hcond, -⟩ | ⟨-, rfl⟩
      · exfalso
        rcases hcond with hlen | hlast
        · simp at hlen
        · exact hlast (by simp [List.getLastD_concat])
      · rfl
    subst hs₁
    subst hs₂
    refine ⟨hent', howners.symm, hfrom0, ht0, hauth', hver', hcomp, hact,
      ?_, ?_, ?_, ?_, ?_, ?_, ?_, ?_⟩
    · rw [← h]; simp
    · intro k hk; rw [← h]; simp [hk]
    · rw [← h]; simp
    · intro k hk; rw [← h]; simp [hk]
    · rw [← h]; simp
    · rw [← h]
    · rw [← h]; simp
    · intro k hk; rw [← h]; simp [hk]

/-- Authorization only reads the two approval mappings. -/
lemma isAuthorized_congr {s t : State}
    (hop : t.operatorApprovals = s.operatorApprovals)
    (htok : t.tokenApprovals = s.tokenApprovals) (o a k : Nat) :
    isAuthorized t o a k = isAuthorized s o a k := by
  simp [isAuthorized, hop, htok]

/-- Spec of a successful plain transfer, phrased on the pre-state. -/
lemma transferFrom_ok_spec {sender fromA toA tokenId now : Nat} {s s' : State}
    (h : transferFrom sender fromA toA tokenId now s = .ok s') :
    toA ≠ 0 ∧ s.owners tokenId = fromA ∧
    (sender ≠ 0 → isAuthorized s (s.owners tokenId) sender tokenId = true) ∧
    (s.owners tokenId ≠ 0 →
      (s.assetDetails tokenId).isCompliant = true ∧
      (s.assetDetails tokenId).status = AssetStatus.Active ∧
      s.verifiedUsers toA = true) ∧
    s'.owners tokenId = toA ∧
    (∀ k, k ≠ tokenId → s'.owners k = s.owners k) ∧
    s'.nextTokenId = s.nextTokenId ∧
    s'.operatorApprovals = s.operatorApprovals ∧
    (∀ k, k ≠ tokenId → s'.tokenApprovals k = s.tokenApprovals k) ∧
    s'.entered = s.entered := by
  obtain ⟨ht0, hfrom, s₁, hg, hs', hauth⟩ := transferFrom_ok_inv h
  obtain ⟨fo, fn, fe, fd, fv, -, ft, fop⟩ := gateAndRecord_ok_fields hg
  subst hs'
  refine ⟨ht0, hfrom, ?_, ?_, ?_, ?_, ?_, ?_, ?_, ?_⟩
  · intro hs0
    rw [← isAuthorized_congr fop ft]; exact hauth hs0
  · intro hex
    rcases gateAndRecord_ok_inv hg with ⟨hz, -⟩ | ⟨-, hc, ha, hv, -⟩
    · exact absurd hz hex
    · exact ⟨hc, ha, hv⟩
  · simp [fo]
  · intro k hk; simp [fo, hk]
  · simp [fn]
  · simp [fop]
  · intro k hk; simp [ft, fo, hk]
  · simp [fe]

/-- The compliance gate rejects a non-compliant or non-Active existing
asset. -/
lemma gateAndRecord_gate_fail {toA tokenId now : Nat} {s : State}
    (hex : s.owners tokenId ≠ 0)
    (hbad : (s.assetDetails tokenId).isCompliant = false ∨
      (s.assetDetails tokenId).status ≠ AssetStatus.Active) :
    gateAndRecord toA tokenId now s = .error .AssetNotCompliant ∨
    gateAndRecord toA tokenId now s = .error .AssetNotActive := by
  simp only [gateAndRecord]
  rw [if_neg hex]
  by_cases hc : (s.assetDetails tokenId).isCompliant = false
  · rw [if_pos hc]; exact Or.inl rfl
  · rw [if_neg hc]
    have ha : (s.assetDetails tokenId).status ≠ AssetStatus.Active := by
      rcases hbad with hb | hb
      · exact absurd hb hc
      · exact hb
    rw [if_pos ha]; exact Or.inr rfl

/-- The compliance gate rejects an unverified recipient of an existing
compliant Active asset. -/
lemma gateAndRecord_unverified {toA tokenId now : Nat} {s : State}
    (hex : s.owners tokenId ≠ 0)
    (hc : (s.assetDetails tokenId).isCompliant = true)
    (ha : (s.assetDetails tokenId).status = AssetStatus.Active)
    (hv : s.verifiedUsers toA = false) :
    gateAndRecord toA tokenId now s = .error .RecipientNotVerified := by
  simp only [gateAndRecord]
  rw [if_neg hex, if_neg (by simp [hc]), if_neg (not_ne_iff.mpr ha), if_pos hv]

/-- A gate error propagates through `_update`. -/
lemma update'_error_of_gate {toA tokenId auth now : Nat} {s : State} {e : Err}
    (hg : gateAndRecord toA tokenId now s = .error e) :
    update' toA tokenId auth now s = .error e := by
  simp only [update', hg]

/-- A gate error propagates through `transferFrom` (for a nonzero
recipient). -/
lemma transferFrom_error_of_gate {sender fromA toA tokenId now : Nat}
    {s : State} {e : Err} (ht0 : toA ≠ 0)
    (hg : gateAndRecord toA tokenId now s = .error e) :
    transferFrom sender fromA toA tokenId now s = .error e := by
  simp only [transferFrom]
  rw [if_neg ht0, update'_error_of_gate hg]

/-- `setUserVerification` only writes the verification mapping. -/
lemma setUserVerification_ok_inv {sender user : Nat} {b : Bool} {s s' : State}
    (h : setUserVerification sender user b s = .ok s') :
    s'.owners = s.owners ∧ s'.nextTokenId = s.nextTokenId ∧
    s'.operatorApprovals = s.operatorApprovals ∧
    s'.tokenApprovals = s.tokenApprovals := by
  simp only [setUserVerification] at h
  split_ifs at h
  simp only [Except.ok.injEq] at h
  rw [← h]
  exact ⟨rfl, rfl, rfl, rfl⟩

/-- `batchVerifyUsers` only writes the verification mapping. -/
lemma batchVerifyUsers_ok_inv {sender : Nat} {users : List Nat} {b : Bool}
    {s s' : State} (h : batchVerifyUsers sender users b s = .ok s') :
    s'.owners = s.owners ∧ s'.nextTokenId = s.nextTokenId ∧
    s'.operatorApprovals = s.operatorApprovals ∧
    s'.tokenApprovals = s.tokenApprovals := by
  simp only [batchVerifyUsers] at h
  split_ifs at h
  simp only [Except.ok.injEq] at h
  rw [← h]
  exact ⟨rfl, rfl, rfl, rfl⟩

/-- `setCompliance` only writes the asset-details mapping. -/
lemma setCompliance_ok_inv {sender assetId : Nat} {b : Bool} {s s' : State}
    (h : setCompliance sender assetId b s = .ok s') :
    s'.owners = s.owners ∧ s'.nextTokenId = s.nextTokenId ∧
    s'.operatorApprovals = s.operatorApprovals ∧
    s'.tokenApprovals = s.tokenApprovals := by
  simp only [setCompliance] at h
  split_ifs at h
  simp only [Except.ok.injEq] at h
  rw [← h]
  exact ⟨rfl, rfl, rfl, rfl⟩

/-- `setAssetStatus` only writes the asset-details mapping. -/
lemma setAssetStatus_ok_inv {sender assetId : Nat} {st : AssetStatus}
    {s s' : State} (h : setAssetStatus sender assetId st s = .ok s') :
    s'.owners = s.owners ∧ s'.nextTokenId = s.nextTokenId ∧
    s'.operatorApprovals = s.operatorApprovals ∧
    s'.tokenApprovals = s.tokenApprovals := by
  simp only [setAssetStatus] at h
  split_ifs at h
  simp only [Except.ok.injEq] at h
  rw [← h]
  exact ⟨rfl, rfl, rfl, rfl⟩

/-- `updateValuation` only writes the asset-details mapping. -/
lemma updateValuation_ok_inv {sender assetId nv : Nat} {s s' : State}
    (h : updateValuation sender assetId nv s = .ok s') :
    s'.owners = s.owners ∧ s'.nextTokenId = s.nextTokenId ∧
    s'.operatorApprovals = s.operatorApprovals ∧
    s'.tokenApprovals = s.tokenApprovals := by
  simp only [updateValuation] at h
  split_ifs at h
  simp only [Except.ok.injEq] at h
  rw [← h]
  exact ⟨rfl, rfl, rfl, rfl⟩

/-- `updateMetadata` only writes the asset-details mapping. -/
lemma updateMetadata_ok_inv {sender assetId : Nat} {uri : String} {s s' : State}
    (h : updateMetadata sender assetId uri s = .ok s') :
    s'.owners = s.owners ∧ s'.nextTokenId = s.nextTokenId ∧
    s'.operatorApprovals = s.operatorApprovals ∧
    s'.tokenApprovals = s.tokenApprovals := by
  simp only [updateMetadata] at h
  split_ifs at h
  simp only [Except.ok.injEq] at h
  rw [← h]
  exact ⟨rfl, rfl, rfl, rfl⟩

/-- `approve` writes one token approval of an existing token. -/
lemma approve_ok_inv {sender toA tokenId : Nat} {s s' : State}
    (h : approve sender toA tokenId s = .ok s') :
    s.owners tokenId ≠ 0 ∧
    s'.owners = s.owners ∧ s'.nextTokenId = s.nextTokenId ∧
    s'.operatorApprovals = s.operatorApprovals ∧
    s'.tokenApprovals =
      (fun k => if k = tokenId then toA else s.tokenApprovals k) := by
  simp only [approve] at h
  split_ifs at h with h1 h2
  simp only [Except.ok.injEq] at h
  rw [← h]
  exact ⟨h1, rfl, rfl, rfl, rfl⟩

/-- `setApprovalForAll` writes one operator approval of the caller. -/
lemma setApprovalForAll_ok_inv {sender operatorA : Nat} {b : Bool} {s s' : State}
    (h : setApprovalForAll sender operatorA b s = .ok s') :
    s'.owners = s.owners ∧ s'.nextTokenId = s.nextTokenId ∧
    s'.operatorApprovals =
      (fun o a => if o = sender ∧ a = operatorA then b
        else s.operatorApprovals o a) ∧
    s'.tokenApprovals = s.tokenApprovals := by
  simp only [setApprovalForAll] at h
  split_ifs at h
  simp only [Except.ok.injEq] at h
  rw [← h]
  exact ⟨rfl, rfl, rfl, rfl⟩

/-- Any state sharing the invariant-relevant fields inherits the
invariant. -/
lemma inv_of_fields {s s' : State} (hown : s'.owners = s.owners)
    (hnext : s'.nextTokenId = s.nextTokenId)
    (hop : s'.operatorApprovals = s.operatorApprovals)
    (htok : s'.tokenApprovals = s.tokenApprovals) (hInv : Inv s) : Inv s' := by
  unfold Inv at hInv ⊢
  rw [hown, hnext, hop, htok]
  exact hInv

/-- A single ownership move of an existing token to a nonzero recipient
preserves the invariant. -/
lemma inv_of_transfer {s s' : State} {toA tokenId : Nat}
    (h1 : s'.owners tokenId = toA)
    (h2 : ∀ k, k ≠ tokenId → s'.owners k = s.owners k)
    (h3 : s'.nextTokenId = s.nextTokenId)
    (h4 : s'.operatorApprovals = s.operatorApprovals)
    (h5 : ∀ k, k ≠ tokenId → s'.tokenApprovals k = s.tokenApprovals k)
    (ht0 : toA ≠ 0) (hlt : tokenId < s.nextTokenId) (hInv : Inv s) : Inv s' := by
  obtain ⟨hiff, hop, htok⟩ := hInv
  refine ⟨fun id => ?_, fun x => by rw [h4]; exact hop x, fun id hid => ?_⟩
  · by_cases hk : id = tokenId
    · subst hk
      rw [h1, h3]
      exact iff_of_true ht0 hlt
    · rw [h2 id hk, h3]
      exact hiff id
  · by_cases hk : id = tokenId
    · subst hk
      rw [h1] at hid
      exact absurd hid ht0
    · rw [h5 id hk]
      exact htok id (by rw [← h2 id hk]; exact hid)

/-- One external call preserves the invariant. -/
lemma inv_execOp (op : Op) {s : State} (hInv : Inv s) : Inv (execOp s op) := by
  cases op with
  | register sender toA uri ty v now =>
    simp only [execOp]
    split_ifs with hs0
    · exact hInv
    cases hr : registerAsset sender toA uri ty v now s with
    | error e => exact hInv
    | ok pr =>
      obtain ⟨rid, s'⟩ := pr
      obtain ⟨hrid, ht0, -, -, -, hown, hnext, -, hops, htoks, -⟩ :=
        registerAsset_ok_inv hr
      obtain ⟨hiff, hop, htok⟩ := hInv
      subst hrid
      refine ⟨fun id => ?_, fun x => by rw [hops]; exact hop x, fun id hid => ?_⟩
      · simp only [hown, hnext]
        by_cases hk : id = s.nextTokenId
        · subst hk
          rw [if_pos rfl]
          exact iff_of_true ht0 (Nat.lt_succ_self _)
        · rw [if_neg hk]
          constructor
          · intro hne
            exact Nat.lt_succ_of_lt ((hiff id).mp hne)
          · intro hlt
            exact (hiff id).mpr (Nat.lt_of_le_of_ne (Nat.le_of_lt_succ hlt) hk)
      · simp only [htoks]
        simp only [hown] at hid
        by_cases hk : id = s.nextTokenId
        · subst hk
          rw [if_pos rfl] at hid
          exact absurd hid ht0
        · rw [if_neg hk] at hid
          exact htok id hid
  | verifyOne sender user b =>
    simp only [execOp]
    split_ifs with hs0
    · exact hInv
    cases hr : setUserVerification sender user b s with
    | error e => exact hInv
    | ok s' =>
      obtain ⟨f1, f2, f3, f4⟩ := setUserVerification_ok_inv hr
      exact inv_of_fields f1 f2 f3 f4 hInv
  | verifyBatch sender users b =>
    simp only [execOp]
    split_ifs with hs0
    · exact hInv
    cases hr : batchVerifyUsers sender users b s with
    | error e => exact hInv
    | ok s' =>
      obtain ⟨f1, f2, f3, f4⟩ := batchVerifyUsers_ok_inv hr
      exact inv_of_fields f1 f2 f3 f4 hInv
  | comply sender assetId b =>
    simp only [execOp]
    split_ifs with hs0
    · exact hInv
    cases hr : setCompliance sender assetId b s with
    | error e => exact hInv
    | ok s' =>
      obtain ⟨f1, f2, f3, f4⟩ := setCompliance_ok_inv hr
      exact inv_of_fields f1 f2 f3 f4 hInv
  | statusSet sender assetId st =>
    simp only [execOp]
    split_ifs with hs0
    · exact hInv
    cases hr : setAssetStatus sender assetId st s with
    | error e => exact hInv
    | ok s' =>
      obtain ⟨f1, f2, f3, f4⟩ := setAssetStatus_ok_inv hr
      exact inv_of_fields f1 f2 f3 f4 hInv
  | valuationSet sender assetId nv =>
    simp only [execOp]
    split_ifs with hs0
    · exact hInv
    cases hr : updateValuation sender assetId nv s with
    | error e => exact hInv
    | ok s' =>
      obtain ⟨f1, f2, f3, f4⟩ := updateValuation_ok_inv hr
      exact inv_of_fields f1 f2 f3 f4 hInv
  | metadataSet sender assetId uri =>
    simp only [execOp]
    split_ifs with hs0
    · exact hInv
    cases hr : updateMetadata sender assetId uri s with
    | error e => exact hInv
    | ok s' =>
      obtain ⟨f1, f2, f3, f4⟩ := updateMetadata_ok_inv hr
      exact inv_of_fields f1 f2 f3 f4 hInv
  | approveTok sender toA tokenId =>
    simp only [execOp]
    split_ifs with hs0
    · exact hInv
    cases hr : approve sender toA tokenId s with
    | error e => exact hInv
    | ok s' =>
      obtain ⟨hex, f1, f2, f3, f4⟩ := approve_ok_inv hr
      obtain ⟨hiff, hop, htok⟩ := hInv
      show Inv s'
      refine ⟨fun id => by rw [f1, f2]; exact hiff id,
        fun x => by rw [f3]; exact hop x, fun id hid => ?_⟩
      rw [f1] at hid
      simp only [f4]
      by_cases hk : id = tokenId
      · subst hk
        exact absurd hid hex
      · rw [if_neg hk]
        exact htok id hid
  | approveAll sender operatorA b =>
    simp only [execOp]
    split_ifs with hs0
    · exact hInv
    cases hr : setApprovalForAll sender operatorA b s with
    | error e => exact hInv
    | ok s' =>
      obtain ⟨f1, f2, f3, f4⟩ := setApprovalForAll_ok_inv hr
      obtain ⟨hiff, hop, htok⟩ := hInv
      show Inv s'
      refine ⟨fun id => by rw [f1, f2]; exact hiff id, fun x => ?_,
        fun id hid => by rw [f4]; rw [f1] at hid; exact htok id hid⟩
      simp only [f3]
      rw [if_neg (by intro hc; exact hs0 hc.1.symm)]
      exact hop x
  | plainTransfer sender fromA toA tokenId now =>
    simp only [execOp]
    split_ifs with hs0
    · exact hInv
    cases hr : transferFrom sender fromA toA tokenId now s with
    | error e => exact hInv
    | ok s' =>
      obtain ⟨ht0, hfrom, hauth, -, h1, h2, h3, h4, h5, -⟩ :=
        transferFrom_ok_spec hr
      have hlt : tokenId < s.nextTokenId := by
        obtain ⟨hiff, hop, htok⟩ := hInv
        by_contra hge
        have hz : s.owners tokenId = 0 := by
          by_contra hnz
          exact hge ((hiff tokenId).mp hnz)
        have hfalse : isAuthorized s 0 sender tokenId = false := by
          simp [isAuthorized, hop sender, htok tokenId hz, Ne.symm hs0]
        have hA := hauth hs0
        rw [hz, hfalse] at hA
        exact absurd hA (by simp)
      exact inv_of_transfer h1 h2 h3 h4 h5 ht0 hlt hInv
  | pricedTransfer sender fromA toA assetId price now =>
    simp only [execOp]
    split_ifs with hs0
    · exact hInv
    cases hr : transferWithPrice sender fromA toA assetId price now s with
    | error e => exact hInv
    | ok s' =>
      obtain ⟨-, hfrom, hfrom0, ht0, -, -, -, -, -, -, h1, h2, h3, -, h4, h5⟩ :=
        transferWithPrice_ok_spec hr
      have hlt : assetId < s.nextTokenId := by
        obtain ⟨hiff, -, -⟩ := hInv
        exact (hiff assetId).mp (by rw [← hfrom]; exact hfrom0)
      exact inv_of_transfer h1 h2 h3 h4 h5 ht0 hlt hInv

/-- Every trace from a freshly constructed contract satisfies the
invariant. -/
lemma inv_execOps (ops : List Op) {s : State} (hInv : Inv s) :
    Inv (execOps ops s) := by
  induction ops generalizing s with
  | nil => exact hInv
  | cons op rest ih => exact ih (inv_execOp op hInv)

/-- The constructor establishes the invariant. -/
lemma inv_initialState (deployer : Nat) : Inv (initialState deployer) := by
  refine ⟨fun id => ?_, fun x => rfl, fun id _ => rfl⟩
  simp [initialState]

/-- While paused, the V2 gate rejects any ownership change of an existing
token with `Paused`. -/
lemma gateAndRecordV2_paused {toA tokenId now : Nat} {s : State}
    (hex : s.owners tokenId ≠ 0) (hp : s.pausedFlag = true) :
    gateAndRecordV2 toA tokenId now s = .error .Paused := by
  simp only [gateAndRecordV2]
  rw [if_pos ⟨hex, hp⟩]

/-- While paused, a V2 plain transfer of an existing token fails with
`Paused`. -/
lemma transferFromV2_paused {sender fromA toA tokenId now : Nat} {s : State}
    (hex : s.owners tokenId ≠ 0) (hp : s.pausedFlag = true) (ht0 : toA ≠ 0) :
    transferFromV2 sender fromA toA tokenId now s = .error .Paused := by
  simp only [transferFromV2, updateV2, gateAndRecordV2_paused hex hp]
  rw [if_neg ht0]

/-- While paused, `transferWithPrice` V2 fails with `Paused` (when no call
is already in flight). -/
lemma transferWithPriceV2_paused {sender fromA toA assetId price now : Nat}
    {s : State} (hent : s.entered = false) (hp : s.pausedFlag = true) :
    transferWithPriceV2 sender fromA toA assetId price now s = .error .Paused := by
  simp only [transferWithPriceV2]
  rw [if_neg (by simp [hent]), if_pos hp]

/-- `registerAssetV2` succeeds (paused or not) for a Minter with a
verified nonzero recipient, a free identifier and no counter overflow. -/
lemma registerAssetV2_ok {sender toA : Nat} {uri ty : String} {v now : Nat}
    {s : State} (hm : s.roles .Minter sender = true)
    (hv : s.verifiedUsers toA = true) (ht0 : toA ≠ 0)
    (hfree : s.owners s.nextTokenId = 0) (hov : s.nextTokenId + 1 < U256) :
    isOk (registerAssetV2 sender toA uri ty v now s) = true := by
  have hg : gateAndRecordV2 toA s.nextTokenId now
      { s with nextTokenId := s.nextTokenId + 1 } =
      .ok { s with nextTokenId := s.nextTokenId + 1 } := by
    simp only [gateAndRecordV2]
    rw [if_neg (by
      intro hc
      exact absurd hc.1 (by simpa using hfree))]
    rw [if_pos (show ({ s with nextTokenId := s.nextTokenId + 1 } : State).owners
      s.nextTokenId = 0 from hfree)]
  simp only [registerAssetV2, mintTokenV2, updateV2, hg]
  rw [if_neg (by simp [hm]), if_neg (by simp [hv]), if_neg (by omega), if_neg ht0]
  simp [hfree]

/-- A V2 plain transfer succeeds when unpaused and every gate condition
holds. -/
lemma transferFromV2_ok {sender fromA toA tokenId now : Nat} {s : State}
    (ht0 : toA ≠ 0) (hp : s.pausedFlag = false)
    (hfrom : s.owners tokenId = fromA) (hf0 : fromA ≠ 0)
    (hc : (s.assetDetails tokenId).isCompliant = true)
    (ha : (s.assetDetails tokenId).status = AssetStatus.Active)
    (hv : s.verifiedUsers toA = true)
    (hauth : isAuthorized s (s.owners tokenId) sender tokenId = true)
    (hs0 : sender ≠ 0) :
    isOk (transferFromV2 sender fromA toA tokenId now s) = true := by
  have hex : s.owners tokenId ≠ 0 := by rw [hfrom]; exact hf0
  have hg : gateAndRecordV2 toA tokenId now s =
      .ok (if s.transferRecordedInUpdate tokenId = false then
        pushRecord s tokenId ⟨s.owners tokenId, toA, now, 0⟩ else s) := by
    simp only [gateAndRecordV2]
    rw [if_neg (by intro hc'; rw [hp] at hc'; exact Bool.noConfusion hc'.2)]
    rw [if_neg hex, if_neg (by simp [hc]), if_neg (not_ne_iff.mpr ha),
      if_neg (by simp [hv])]
    by_cases hrec : s.transferRecordedInUpdate tokenId = false
    · rw [if_pos hrec, if_pos hrec]
    · rw [if_neg hrec, if_neg hrec]
  simp only [transferFromV2, updateV2, hg]
  rw [if_neg ht0]
  by_cases hrec : s.transferRecordedInUpdate tokenId = false <;>
    [rw [if_pos hrec]; rw [if_neg hrec]] <;>
    · try dsimp only
      rw [if_pos hs0]
      rw [if_pos (by
        first
        | exact (isAuthorized_congr rfl rfl sender tokenId).symm ▸ hauth
        | exact hauth)]
      try dsimp only
      rw [if_neg (not_ne_iff.mpr hfrom)]
      rfl

/-! ## Claim theorems -/

/-- C1: every successful `transferWithPrice` call appends exactly one
`TransferRecord` to the target asset's history — the one carrying the
caller-supplied price — and leaves every other asset's history unchanged,
so no second zero-price record ever appears for the same logical
operation. -/
theorem claim1_transfer_with_price_appends_exactly_one_record
    (sender fromA toA assetId price now : Nat) (s s' : State)
    (h : transferWithPrice sender fromA toA assetId price now s = .ok s') :
    s'.transferHistory assetId =
      s.transferHistory assetId ++ [⟨fromA, toA, now, price⟩] ∧
    ∀ k, k ≠ assetId → s'.transferHistory k = s.transferHistory k := by
  obtain ⟨-, -, -, -, -, -, -, -, h9, h10, -⟩ := transferWithPrice_ok_spec h
  exact ⟨h9, h10⟩

/-- C1 witness: a concrete successful priced sale 2 → 3 of asset 0 at
price 50 leaves exactly the one priced record. -/
theorem claim1_witness :
    ∃ s', transferWithPrice 2 2 3 0 50 9 demoState = .ok s' ∧
      s'.transferHistory 0 = demoState.transferHistory 0 ++ [⟨2, 3, 9, 50⟩] ∧
      s'.transferHistory 1 = demoState.transferHistory 1 := by
  have hok : isOk (transferWithPrice 2 2 3 0 50 9 demoState) = true := by decide
  cases hcall : transferWithPrice 2 2 3 0 50 9 demoState with
  | error e => rw [hcall] at hok; exact Bool.noConfusion hok
  | ok s' =>
    obtain ⟨h1, h2⟩ :=
      claim1_transfer_with_price_appends_exactly_one_record 2 2 3 0 50 9
        demoState s' hcall
    exact ⟨s', rfl, h1, h2 1 (by decide)⟩

/-- C2 (counter-evidence, code bug): evaluating the V1 code at the failing
input — owner 2 self-transferring asset 0 while the last history record
already names recipient 2, with no price-tracked transfer in flight — the
plain transfer succeeds yet the history length stays 1 instead of growing
by one, because the V1 dedup heuristic keys on the last record's recipient
rather than on the spec's in-flight marker. -/
theorem claim2_self_transfer_skips_history_record :
    (transferFrom 2 2 2 0 9 staleHistoryState).map
      (fun s' => (s'.transferHistory 0).length) = .ok 1 := by
  decide

/-- C3 (spec-modelled): while the circuit breaker is paused,
`registerAsset` still succeeds for a Minter with a verified recipient, but
both transfer entry points fail with `Paused`; after `unpause` the
previously blocked plain transfer succeeds when its other gates hold. -/
theorem claim3_pause_scope (s : State)
    (m r a sender fromA toA tokenId price : Nat) (uri ty : String) (v now : Nat)
    (hp : s.pausedFlag = true)
    (hm : s.roles .Minter m = true) (hrv : s.verifiedUsers r = true)
    (hr0 : r ≠ 0) (hfree : s.owners s.nextTokenId = 0)
    (hov : s.nextTokenId + 1 < U256)
    (hfrom : s.owners tokenId = fromA) (hf0 : fromA ≠ 0) (ht0 : toA ≠ 0)
    (hent : s.entered = false) (ha : s.roles .Admin a = true)
    (hc : (s.assetDetails tokenId).isCompliant = true)
    (hac : (s.assetDetails tokenId).status = AssetStatus.Active)
    (hv : s.verifiedUsers toA = true)
    (hauth : isAuthorized s (s.owners tokenId) sender tokenId = true)
    (hs0 : sender ≠ 0) :
    isOk (registerAssetV2 m r uri ty v now s) = true ∧
    transferFromV2 sender fromA toA tokenId now s = .error .Paused ∧
    transferWithPriceV2 sender fromA toA tokenId price now s = .error .Paused ∧
    ∃ s₂, unpause a s = .ok s₂ ∧
      isOk (transferFromV2 sender fromA toA tokenId now s₂) = true := by
  have hex : s.owners tokenId ≠ 0 := by rw [hfrom]; exact hf0
  refine ⟨registerAssetV2_ok hm hrv hr0 hfree hov,
    transferFromV2_paused hex hp ht0,
    transferWithPriceV2_paused hent hp, ?_⟩
  refine ⟨{ s with pausedFlag := false }, ?_, ?_⟩
  · simp only [unpause]
    rw [if_neg (by simp [ha]), if_neg (by simp [hp])]
  · exact transferFromV2_ok ht0 rfl hfrom hf0 hc hac hv hauth hs0

/-- C3 witness: the concrete paused state — register to verified account 3
succeeds, both transfers of asset 0 fail `Paused`, and after `unpause` the
plain transfer 2 → 3 goes through. -/
theorem claim3_witness :
    isOk (registerAssetV2 1 3 "u" "t" 5 9 pausedDemoState) = true ∧
    transferFromV2 2 2 3 0 9 pausedDemoState = .error .Paused ∧
    transferWithPriceV2 2 2 3 0 50 9 pausedDemoState = .error .Paused ∧
    ∃ s₂, unpause 1 pausedDemoState = .ok s₂ ∧
      isOk (transferFromV2 2 2 3 0 9 s₂) = true := by
  exact claim3_pause_scope pausedDemoState 1 3 1 2 2 3 0 50 "u" "t" 5 9
    (by decide) (by decide) (by decide) (by decide) (by decide)
    (by decide) (by decide) (by decide) (by decide) (by decide)
    (by decide) (by decide) (by decide) (by decide) (by decide) (by decide)

/-- C4 (counter-evidence, code bug): the V1 `batchVerifyUsers` under `src/`
enforces no batch bounds — called by the Compliance-role deployer it
succeeds on an empty list (instead of failing `EmptyBatch`) and succeeds on
101 accounts (instead of failing `BatchTooLarge`). -/
theorem claim4_batch_bounds_not_enforced :
    isOk (batchVerifyUsers 1 [] true demoState) = true ∧
    isOk (batchVerifyUsers 1 ((List.range 101).map (fun i => i + 2)) true
      demoState) = true := by
  constructor <;> decide

/-- C5: with an unverified recipient, registration and both transfer entry
points always fail — reverting, so no `TransferRecord` of any asset is
appended — and with the respective remaining gates satisfied the failure
is precisely `RecipientNotVerified`. -/
theorem claim5_verification_gate (sender fromA toA tokenId assetId : Nat)
    (uri ty : String) (v price now : Nat) (s : State)
    (hver : s.verifiedUsers toA = false) :
    isOk (registerAsset sender toA uri ty v now s) = false ∧
    isOk (transferWithPrice sender fromA toA assetId price now s) = false ∧
    (s.owners tokenId ≠ 0 →
      isOk (transferFrom sender fromA toA tokenId now s) = false) ∧
    (s.roles .Minter sender = true →
      registerAsset sender toA uri ty v now s = .error .RecipientNotVerified) ∧
    (s.entered = false → isAuthorized s (s.owners assetId) sender assetId = true →
      transferWithPrice sender fromA toA assetId price now s =
        .error .RecipientNotVerified) ∧
    (toA ≠ 0 → s.owners tokenId ≠ 0 →
      (s.assetDetails tokenId).isCompliant = true →
      (s.assetDetails tokenId).status = AssetStatus.Active →
      transferFrom sender fromA toA tokenId now s =
        .error .RecipientNotVerified) := by
  refine ⟨?_, ?_, ?_, ?_, ?_, ?_⟩
  · cases hr : registerAsset sender toA uri ty v now s with
    | error e => simp
    | ok pr =>
      obtain ⟨rid, s'⟩ := pr
      obtain ⟨-, -, -, hv, -⟩ := registerAsset_ok_inv hr
      rw [hver] at hv
      exact Bool.noConfusion hv
  · cases hr : transferWithPrice sender fromA toA assetId price now s with
    | error e => simp
    | ok s' =>
      obtain ⟨-, -, -, -, -, hv, -⟩ := transferWithPrice_ok_spec hr
      rw [hver] at hv
      exact Bool.noConfusion hv
  · intro hex
    cases hr : transferFrom sender fromA toA tokenId now s with
    | error e => simp
    | ok s' =>
      obtain ⟨-, -, -, hg, -⟩ := transferFrom_ok_spec hr
      obtain ⟨-, -, hv⟩ := hg hex
      rw [hver] at hv
      exact Bool.noConfusion hv
  · intro hm
    simp only [registerAsset]
    rw [if_neg (by simp [hm]), if_pos hver]
  · intro hent hauth
    simp only [transferWithPrice]
    rw [if_neg (by simp [hent]), if_neg (by simp [hauth]), if_pos hver]
  · intro ht0 hex hc ha
    exact transferFrom_error_of_gate ht0 (gateAndRecord_unverified hex hc ha hver)

/-- C5 witness: account 9 is unverified in `demoState`; the Minter's
registration to it and both transfers of asset 0 to it fail with
`RecipientNotVerified`. -/
theorem claim5_witness :
    isOk (registerAsset 1 9 "u" "t" 5 9 demoState) = false ∧
    registerAsset 1 9 "u" "t" 5 9 demoState = .error .RecipientNotVerified ∧
    isOk (transferWithPrice 2 2 9 0 50 9 demoState) = false ∧
    transferWithPrice 2 2 9 0 50 9 demoState = .error .RecipientNotVerified ∧
    isOk (transferFrom 2 2 9 0 9 demoState) = false ∧
    transferFrom 2 2 9 0 9 demoState = .error .RecipientNotVerified := by
  obtain ⟨a1, -, -, a4, -, -⟩ :=
    claim5_verification_gate 1 2 9 0 0 "u" "t" 5 50 9 demoState (by decide)
  obtain ⟨-, b2, b3, -, b5, b6⟩ :=
    claim5_verification_gate 2 2 9 0 0 "u" "t" 5 50 9 demoState (by decide)
  exact ⟨a1, a4 (by decide), b2, b5 (by decide) (by decide), b3 (by decide),
    b6 (by decide) (by decide) (by decide) (by decide)⟩

/-- C6: for an existing asset that is non-compliant or not Active, every
transfer attempt by any caller through either entry point fails — the call
reverts, leaving the owner field (and all other state) unchanged. -/
theorem claim6_compliance_gate (sender fromA toA tokenId price now : Nat)
    (s : State) (hex : s.owners tokenId ≠ 0)
    (hbad : (s.assetDetails tokenId).isCompliant = false ∨
      (s.assetDetails tokenId).status ≠ AssetStatus.Active) :
    isOk (transferFrom sender fromA toA tokenId now s) = false ∧
    isOk (transferWithPrice sender fromA toA tokenId price now s) = false := by
  constructor
  · cases hr : transferFrom sender fromA toA tokenId now s with
    | error e => simp
    | ok s' =>
      obtain ⟨-, -, -, hg, -⟩ := transferFrom_ok_spec hr
      obtain ⟨hc, ha, -⟩ := hg hex
      rcases hbad with hb | hb
      · rw [hc] at hb; exact Bool.noConfusion hb
      · exact absurd ha hb
  · cases hr : transferWithPrice sender fromA toA tokenId price now s with
    | error e => simp
    | ok s' =>
      obtain ⟨-, -, -, -, -, -, hc, ha, -⟩ := transferWithPrice_ok_spec hr
      rcases hbad with hb | hb
      · rw [hc] at hb; exact Bool.noConfusion hb
      · exact absurd ha hb

/-- C6 witness: asset 0 of `frozenDemoState` is compliant but Frozen, so
both transfer attempts by its owner fail. -/
theorem claim6_witness :
    isOk (transferFrom 2 2 3 0 9 frozenDemoState) = false ∧
    isOk (transferWithPrice 2 2 3 0 50 9 frozenDemoState) = false := by
  exact claim6_compliance_gate 2 2 3 0 50 9 frozenDemoState (by decide)
    (Or.inr (by decide))

/-- C7: in any state reached by any sequence of external calls from a
freshly constructed contract, a successful registration assigns an
identifier strictly greater than every currently assigned identifier
(identifiers are handed out sequentially and never reused), and
`getAssetInfo` on every identifier at or above the assigned one — i.e. on
every identifier never assigned — fails with `AssetNotFound`. -/
theorem claim7_sequential_ids (d : Nat) (ops : List Op) (sender toA : Nat)
    (uri ty : String) (v now rid : Nat) (s' : State)
    (h : registerAsset sender toA uri ty v now (execOps ops (initialState d)) =
      .ok (rid, s')) :
    (∀ id, (execOps ops (initialState d)).owners id ≠ 0 → id < rid) ∧
    (∀ j, rid ≤ j →
      getAssetInfo j (execOps ops (initialState d)) = .error .AssetNotFound) := by
  have hInv := inv_execOps ops (inv_initialState d)
  obtain ⟨hrid, -⟩ := registerAsset_ok_inv h
  constructor
  · intro id hne
    rw [hrid]
    exact (hInv.1 id).mp hne
  · intro j hj
    have hz : (execOps ops (initialState d)).owners j = 0 := by
      by_contra hnz
      have := (hInv.1 j).mp hnz
      rw [← hrid] at this
      omega
    simp only [getAssetInfo]
    rw [if_pos hz]

/-- C7 witness: after verifying account 2 and registering asset 0 to it,
a second registration is assigned identifier 1 — strictly above the
already-assigned identifier 0 — and `getAssetInfo 5` fails with
`AssetNotFound`. -/
theorem claim7_witness :
    0 < 1 ∧
    getAssetInfo 5 (execOps [Op.verifyOne 1 2 true, Op.register 1 2 "a" "t" 5 6]
      (initialState 1)) = .error .AssetNotFound := by
  have hok : isOk (registerAsset 1 2 "b" "t" 7 8
      (execOps [Op.verifyOne 1 2 true, Op.register 1 2 "a" "t" 5 6]
        (initialState 1))) = true := by decide
  cases hcall : registerAsset 1 2 "b" "t" 7 8
      (execOps [Op.verifyOne 1 2 true, Op.register 1 2 "a" "t" 5 6]
        (initialState 1)) with
  | error e => rw [hcall] at hok; exact Bool.noConfusion hok
  | ok pr =>
    obtain ⟨rid, s'⟩ := pr
    have hrid : rid = 1 := by
      have hfst : (registerAsset 1 2 "b" "t" 7 8
          (execOps [Op.verifyOne 1 2 true, Op.register 1 2 "a" "t" 5 6]
            (initialState 1))).map Prod.fst = .ok 1 := by decide
      rw [hcall] at hfst
      simpa [Except.map] using hfst
    obtain ⟨h1, h2⟩ := claim7_sequential_ids 1
      [Op.verifyOne 1 2 true, Op.register 1 2 "a" "t" 5 6] 1 2 "b" "t" 7 8
      rid s' hcall
    subst hrid
    exact ⟨h1 0 (by decide), h2 5 (by decide)⟩

/-- C8: the ReentrancyGuard makes re-entrant execution impossible — any
`transferWithPrice` call entered while another is in flight (guard status
`ENTERED`) is rejected with `ReentrantCall`, and a call that does execute
can only have started with the guard down, restoring it on exit. -/
theorem claim8_reentrancy_guard (sender fromA toA assetId price now : Nat)
    (s : State) :
    (s.entered = true →
      transferWithPrice sender fromA toA assetId price now s =
        .error .ReentrantCall) ∧
    (∀ s', transferWithPrice sender fromA toA assetId price now s = .ok s' →
      s.entered = false ∧ s'.entered = false) := by
  constructor
  · intro hent
    simp only [transferWithPrice]
    rw [if_pos hent]
  · intro s' h
    obtain ⟨h1, -⟩ := transferWithPrice_ok_spec h
    obtain ⟨-, -, -, -, -, -, -, -, -, -, -, -, -, h14, -⟩ :=
      transferWithPrice_ok_spec h
    exact ⟨h1, h14⟩

/-- C8 witness: with a transfer in flight (`enteredDemoState`) the nested
call is rejected; the same call on the quiescent `demoState` runs with the
guard down. -/
theorem claim8_witness :
    transferWithPrice 2 2 3 0 50 9 enteredDemoState = .error .ReentrantCall ∧
    demoState.entered = false := by
  constructor
  · exact (claim8_reentrancy_guard 2 2 3 0 50 9 enteredDemoState).1 rfl
  · have hok : isOk (transferWithPrice 2 2 3 0 50 9 demoState) = true := by decide
    cases hcall : transferWithPrice 2 2 3 0 50 9 demoState with
    | error e => rw [hcall] at hok; exact Bool.noConfusion hok
    | ok s' =>
      exact ((claim8_reentrancy_guard 2 2 3 0 50 9 demoState).2 s' hcall).1

/-- C9: in every successful `transferWithPrice` the caller-supplied `from`
argument — and hence the `from` field of the single appended record —
equals the asset's owner immediately before the call; a call whose `from`
argument differs from the current owner reverts as a whole, leaving the
history unchanged. -/
theorem claim9_record_from_equals_owner (sender fromA toA assetId price now : Nat)
    (s : State) :
    (∀ s', transferWithPrice sender fromA toA assetId price now s = .ok s' →
      fromA = s.owners assetId ∧
      s'.transferHistory assetId =
        s.transferHistory assetId ++ [⟨s.owners assetId, toA, now, price⟩]) ∧
    (fromA ≠ s.owners assetId →
      isOk (transferWithPrice sender fromA toA assetId price now s) = false) := by
  constructor
  · intro s' h
    obtain ⟨-, h2, -, -, -, -, -, -, h9, -⟩ := transferWithPrice_ok_spec h
    exact ⟨h2, by rw [← h2]; exact h9⟩
  · intro hne
    cases hr : transferWithPrice sender fromA toA assetId price now s with
    | error e => simp
    | ok s' =>
      obtain ⟨-, h2, -⟩ := transferWithPrice_ok_spec hr
      exact absurd h2 hne

/-- C9 witness: the successful sale records `from` = owner 2, and the same
call with `from` = 3 (≠ owner) fails as a whole. -/
theorem claim9_witness :
    isOk (transferWithPrice 2 3 3 0 50 9 demoState) = false ∧
    2 = demoState.owners 0 := by
  constructor
  · exact (claim9_record_from_equals_owner 2 3 3 0 50 9 demoState).2 (by decide)
  · have hok : isOk (transferWithPrice 2 2 3 0 50 9 demoState) = true := by decide
    cases hcall : transferWithPrice 2 2 3 0 50 9 demoState with
    | error e => rw [hcall] at hok; exact Bool.noConfusion hok
    | ok s' =>
      exact ((claim9_record_from_equals_owner 2 2 3 0 50 9 demoState).1
        s' hcall).1

/-- C10: right after construction the deployer is verified (and no other
account is), holds all four roles, and can therefore receive a registered
asset with no prior `setUserVerification` call. -/
theorem claim10_deployer_verified (d : Nat) (uri ty : String) (v now : Nat) :
    (initialState d).verifiedUsers d = true ∧
    (∀ a, a ≠ d → (initialState d).verifiedUsers a = false) ∧
    (initialState d).roles .DefaultAdmin d = true ∧
    (initialState d).roles .Admin d = true ∧
    (initialState d).roles .Minter d = true ∧
    (initialState d).roles .Compliance d = true ∧
    (d ≠ 0 → isOk (registerAsset d d uri ty v now (initialState d)) = true) := by
  refine ⟨by simp [initialState], ?_, by simp [initialState],
    by simp [initialState], by simp [initialState], by simp [initialState], ?_⟩
  · intro a hne
    simp only [initialState]
    exact beq_eq_false_iff_ne.mpr hne
  · intro hd0
    have hg : gateAndRecord d (initialState d).nextTokenId now
        { initialState d with nextTokenId := (initialState d).nextTokenId + 1 } =
        .ok { initialState d with
          nextTokenId := (initialState d).nextTokenId + 1 } := by
      simp only [gateAndRecord]
      rw [if_pos (show ({ initialState d with
        nextTokenId := (initialState d).nextTokenId + 1 } : State).owners
        ((initialState d).nextTokenId) = 0 from rfl)]
    simp only [registerAsset, mintToken, update']
    rw [if_neg (by simp [initialState]), if_neg (by simp [initialState]),
      if_neg (by norm_num [U256, initialState]), if_neg hd0, hg]
    simp [initialState]

/-- C10 witness: deployer 1 is verified, account 2 is not, and the
deployer's self-registration succeeds immediately after construction. -/
theorem claim10_witness :
    (initialState 1).verifiedUsers 1 = true ∧
    (initialState 1).verifiedUsers 2 = false ∧
    (initialState 1).roles .Minter 1 = true ∧
    isOk (registerAsset 1 1 "u" "t" 5 9 (initialState 1)) = true := by
  obtain ⟨w1, w2, -, -, w5, -, w7⟩ := claim10_deployer_verified 1 "u" "t" 5 9
  exact ⟨w1, w2 2 (by decide), w5, w7 (by decide)⟩

end AssetTok
